import Mathlib

/-!
A shallow embedding of the session-authentication, role-authorization and
weekly-schedule-aggregation core of the VMC shop-floor management
application (Rust sources under `src-tauri/src`), together with proofs of
the specification claims about it.

Modelling conventions:

* The SQLite database behind the single mutex-guarded connection is a
  record of lists of rows (`Db`), one list per table, in insertion order.
  `query_row` becomes `List.find?` (first match), `query_map` becomes
  `List.filter`, and `UPDATE`/`INSERT` become pure state transformations.
* `TEXT` timestamps (`expires_at`, `created_at`, the clock rendered with
  `format("%Y-%m-%d %H:%M:%S")`) stay strings; the Rust code compares them
  with the string order, which we embed as byte-wise lexicographic
  comparison (`strLt`), exactly SQLite's and Rust's ordering on these
  ASCII strings.
* `REAL` hour columns are modelled as exact fixed-point numbers (`Int`);
  every claim about them concerns only `+`, `0` and the order of
  summation, never rounding, and `f64` literals such as `11.5` are read at
  a fixed scale (tenths) in concrete examples.
* Calendar dates travel as `YYYY-MM-DD` strings and are parsed/formatted
  through a proleptic-Gregorian day-number (`daysFromCivil` /
  `civilFromDays`, the standard civil-calendar algorithms), which embeds
  `chrono::NaiveDate` parsing, `Duration::days` arithmetic and `%Y-%m-%d`
  formatting.
* Sources of nondeterminism that live outside the repository are explicit
  parameters: the clock (`now`), the random token (`token`), and storage
  failure oracles (`Bool`, or `Nat → Bool` indexed by statement count) for
  the fallible `INSERT`/`UPDATE` statements whose errors the code either
  propagates or deliberately swallows.
-/

namespace VMC

/-- Byte-wise lexicographic strict order on character lists: the order
SQLite (`memcmp`) and Rust (`str::cmp`) use on the ASCII strings this
application stores. -/
def listCharLt : List Char → List Char → Bool
  | [], [] => false
  | [], _ :: _ => true
  | _ :: _, [] => false
  | a :: as, b :: bs =>
    if a.val < b.val then true
    else if b.val < a.val then false
    else listCharLt as bs

/-- Strict string order (see `listCharLt`). -/
def strLt (a b : String) : Bool := listCharLt a.data b.data

/-- Reflexive string order. -/
def strLe (a b : String) : Bool := strLt a b || a == b

/-- Insert into a sorted list: helper for the stable sort embedding SQL
`ORDER BY`. -/
def insertLe (le : α → α → Bool) (a : α) : List α → List α
  | [] => [a]
  | b :: bs => if le a b then a :: b :: bs else b :: insertLe le a bs

/-- Stable insertion sort: embeds SQL `ORDER BY` with a boolean
comparator. -/
def sortBy (le : α → α → Bool) : List α → List α
  | [] => []
  | a :: as => insertLe le a (sortBy le as)

theorem length_insertLe (le : α → α → Bool) (a : α) (l : List α) :
    (insertLe le a l).length = l.length + 1 := by
  induction l with
  | nil => rfl
  | cons b bs ih =>
    simp only [insertLe]
    split
    · simp
    · simp [ih]

theorem length_sortBy (le : α → α → Bool) (l : List α) :
    (sortBy le l).length = l.length := by
  induction l with
  | nil => rfl
  | cons a as ih => simp [sortBy, length_insertLe, ih]

theorem mem_insertLe (le : α → α → Bool) (a x : α) (l : List α) :
    x ∈ insertLe le a l ↔ x = a ∨ x ∈ l := by
  induction l with
  | nil => simp [insertLe]
  | cons b bs ih =>
    simp only [insertLe]
    split
    · simp [List.mem_cons]
    · simp only [List.mem_cons, ih]
      tauto

theorem mem_sortBy (le : α → α → Bool) (x : α) (l : List α) :
    x ∈ sortBy le l ↔ x ∈ l := by
  induction l with
  | nil => simp [sortBy]
  | cons a as ih =>
    simp only [sortBy, mem_insertLe, List.mem_cons, ih]

/-- Value of a decimal digit character, if it is one. -/
def digitVal (c : Char) : Option Nat :=
  if 48 ≤ c.val && c.val ≤ 57 then some (c.val.toNat - 48) else none

/-- Parse a run of decimal digits (all characters must be digits). -/
def parseNatAux : List Char → Nat → Option Nat
  | [], acc => some acc
  | c :: cs, acc =>
    match digitVal c with
    | none => none
    | some d => parseNatAux cs (acc * 10 + d)

/-- Parse a fixed-width decimal field, as in the canonical zero-padded
`YYYY-MM-DD` rendering the application reads and writes. -/
def parseNatField (cs : List Char) (width : Nat) : Option Nat :=
  if cs.length = width then parseNatAux cs 0 else none

/-- Split a character list on the character `-` (embeds the field
structure of a date string). -/
def splitFields : List Char → List (List Char)
  | [] => [[]]
  | c :: cs =>
    let rest := splitFields cs
    if c = '-' then [] :: rest
    else
      match rest with
      | [] => [[c]]
      | f :: fs => (c :: f) :: fs

/-- Gregorian leap-year test. -/
def isLeap (y : Nat) : Bool := y % 4 == 0 && (y % 100 != 0 || y % 400 == 0)

/-- Length of a month in the proleptic Gregorian calendar. -/
def daysInMonth (y m : Nat) : Nat :=
  if m == 2 then (if isLeap y then 29 else 28)
  else if m == 4 || m == 6 || m == 9 || m == 11 then 30 else 31

/-- Day number (days since 1970-01-01) of a civil date: the standard
era-based civil-calendar algorithm, embedding `chrono::NaiveDate`. -/
def daysFromCivil (y m d : Nat) : Int :=
  let yi : Int := if m ≤ 2 then (y : Int) - 1 else (y : Int)
  let era : Int := Int.fdiv yi 400
  let yoe : Nat := (yi - era * 400).toNat
  let mp : Nat := (m + 9) % 12
  let doy : Nat := (153 * mp + 2) / 5 + d - 1
  let doe : Nat := yoe * 365 + yoe / 4 - yoe / 100 + doy
  era * 146097 + (doe : Int) - 719468

/-- Civil date (year, month, day) of a day number: inverse direction of
`daysFromCivil`. -/
def civilFromDays (z : Int) : Int × Nat × Nat :=
  let z' := z + 719468
  let era := Int.fdiv z' 146097
  let doe := (z' - era * 146097).toNat
  let yoe := (doe - doe / 1460 + doe / 36524 - doe / 146096) / 365
  let doy := doe - (365 * yoe + yoe / 4 - yoe / 100)
  let mp := (5 * doy + 2) / 153
  let d := doy - (153 * mp + 2) / 5 + 1
  let m := if mp < 10 then mp + 3 else mp - 9
  (era * 400 + yoe + (if m ≤ 2 then 1 else 0), m, d)

/-- Parse a `YYYY-MM-DD` string to a day number, validating the calendar
date; `none` embeds a `chrono::ParseError`. -/
def parseDate (s : String) : Option Int :=
  match splitFields s.data with
  | [ys, ms, ds] =>
    match parseNatField ys 4, parseNatField ms 2, parseNatField ds 2 with
    | some y, some m, some d =>
      if 1 ≤ m && m ≤ 12 && 1 ≤ d && d ≤ daysInMonth y m then
        some (daysFromCivil y m d)
      else none
    | _, _, _ => none
  | _ => none

/-- Zero-pad a number to a field width. -/
def padNum (width n : Nat) : String :=
  let s := toString n
  String.mk (List.replicate (width - s.length) '0') ++ s

/-- Format a day number as `YYYY-MM-DD` (embeds `format("%Y-%m-%d")`). -/
def formatDate (z : Int) : String :=
  let c := civilFromDays z
  padNum 4 c.1.toNat ++ "-" ++ padNum 2 c.2.1 ++ "-" ++ padNum 2 c.2.2

/-- English weekday names anchored at day number 0 = 1970-01-01, a
Thursday (embeds `format("%A")`). -/
def weekdayNames : List String :=
  ["Thursday", "Friday", "Saturday", "Sunday", "Monday", "Tuesday", "Wednesday"]

/-- Weekday name of a day number. -/
def dayName (z : Int) : String := weekdayNames.getD (Int.emod z 7).toNat ""

/-- Row of the `users` table (`models/user.rs::User`, `schema.rs`). -/
structure User where
  id : Int
  username : String
  password_hash : String
  email : Option String
  full_name : Option String
  role : String
  is_active : Bool
  created_at : String
  updated_at : String
  deriving Repr, DecidableEq

/-- Public projection of a user (`models/user.rs::UserPublic`). -/
structure UserPublic where
  id : Int
  username : String
  email : Option String
  full_name : Option String
  role : String
  is_active : Bool
  created_at : String
  deriving Repr, DecidableEq

/-- Embeds `impl From<User> for UserPublic`. -/
def UserPublic.ofUser (user : User) : UserPublic :=
  { id := user.id, username := user.username, email := user.email,
    full_name := user.full_name, role := user.role,
    is_active := user.is_active, created_at := user.created_at }

/-- Row of the `sessions` table (`models/user.rs::Session`, `schema.rs`). -/
structure Session where
  id : Int
  user_id : Int
  token : String
  created_at : String
  expires_at : String
  is_valid : Bool
  deriving Repr, DecidableEq

/-- Row of the `schedules` table (`schema.rs`); the Rust `Schedule` struct
reads every column except `created_at`-adjacent bookkeeping it also
carries — we keep the full row, including `created_by`, which the table
stores and `copy_week_schedule` writes. -/
structure Schedule where
  id : Int
  machine_id : Int
  project_id : Option Int
  date : String
  start_time : Option String
  end_time : Option String
  operator_id : Option Int
  load_name : Option String
  planned_hours : Int
  actual_hours : Option Int
  notes : Option String
  status : String
  created_by : Option Int
  created_at : String
  updated_at : String
  deriving Repr, DecidableEq

/-- The two `machines` columns this core reads
(`SELECT id, name FROM machines`). -/
structure Machine where
  id : Int
  name : String
  deriving Repr, DecidableEq

/-- The two `projects` columns this core reads (joined `p.id`, `p.name`). -/
structure Project where
  id : Int
  name : String
  deriving Repr, DecidableEq

/-- The embedded database: one list of rows per table, in insertion
order (SQLite rowid order), guarded in Rust by the single mutex. -/
structure Db where
  users : List User
  sessions : List Session
  schedules : List Schedule
  machines : List Machine
  projects : List Project
  deriving Repr, DecidableEq

/-- Embeds `utils/permissions.rs::check_role`. -/
def check_role (user : User) (required_roles : List String) : Except String Unit :=
  if user.role ∈ required_roles then .ok ()
  else
    .error ("Permission denied. Required role: " ++ reprStr required_roles ++
      ", your role: " ++ user.role)

/-- Embeds `require_admin`. -/
def require_admin (user : User) : Except String Unit :=
  check_role user ["Admin"]

/-- Embeds `require_edit_permission`. -/
def require_edit_permission (user : User) : Except String Unit :=
  check_role user ["Admin", "Operator"]

/-- Embeds `require_view_permission`. -/
def require_view_permission (user : User) : Except String Unit :=
  check_role user ["Admin", "Operator", "Viewer"]

/-- Modelled from the spec: bcrypt password hashing (`bcrypt::hash`), a
library external to this repository, idealised as an injective tagging of
the password; the spec's contract is only that `verify` recognises
exactly the hashed password. -/
def hash_password (password : String) : String := "bcrypt$" ++ password

/-- Modelled from the spec: bcrypt verification (`bcrypt::verify`),
matching the idealised `hash_password`. -/
def verify_password (password hash : String) : Bool :=
  hash == "bcrypt$" ++ password

/-- Next `AUTOINCREMENT` rowid for the `sessions` table. -/
def nextSessionId (db : Db) : Int :=
  (db.sessions.map Session.id).foldl max 0 + 1

/-- Embeds `utils/auth.rs::create_session`: the random token
(`Uuid::new_v4`) and the formatted clock values are oracle parameters
(the Rust code fixes `expires_at = now + 24h`); `insOk` is the storage
oracle for the `INSERT`, whose error the code propagates. -/
def create_session (db : Db) (user_id : Int)
    (token expires_at created_at : String) (insOk : Bool) :
    Except String (String × String) × Db :=
  if insOk then
    (.ok (token, expires_at),
      { db with sessions := db.sessions ++
        [{ id := nextSessionId db, user_id := user_id, token := token,
           created_at := created_at, expires_at := expires_at,
           is_valid := true }] })
  else (.error "Failed to create session: storage error", db)

/-- Embeds `utils/auth.rs::validate_session`: look up the first session
row with this token and `is_valid = 1`; if its `expires_at` string is
below the formatted clock `now`, best-effort-invalidate it (`updOk` is
the storage oracle for that `UPDATE`, whose result the code discards with
`.ok()`) and fail; otherwise resolve the active user. -/
def validate_session (db : Db) (now : String) (updOk : Bool) (token : String) :
    Except String User × Db :=
  match db.sessions.find? (fun s => s.token == token && s.is_valid) with
  | none => (.error "Invalid or expired session", db)
  | some session =>
    if strLt session.expires_at now then
      (.error "Session expired",
        if updOk then
          { db with sessions := db.sessions.map (fun t =>
              if t.id == session.id then { t with is_valid := false } else t) }
        else db)
    else
      match db.users.find? (fun u => u.id == session.user_id && u.is_active) with
      | none => (.error "User not found or inactive", db)
      | some user => (.ok user, db)

/-- Embeds `utils/auth.rs::invalidate_session` (`updOk` is the storage
oracle for the `UPDATE`). -/
def invalidate_session (db : Db) (token : String) (updOk : Bool) :
    Except String Unit × Db :=
  if updOk then
    (.ok (), { db with sessions := db.sessions.map (fun s =>
        if s.token == token then { s with is_valid := false } else s) })
  else (.error "Failed to invalidate session: storage error", db)

/-- Embeds `utils/auth.rs::invalidate_all_user_sessions`. -/
def invalidate_all_user_sessions (db : Db) (user_id : Int) (updOk : Bool) :
    Except String Unit × Db :=
  if updOk then
    (.ok (), { db with sessions := db.sessions.map (fun s =>
        if s.user_id == user_id then { s with is_valid := false } else s) })
  else (.error "Failed to invalidate sessions: storage error", db)

/-- Response of a successful login (`models/user.rs::AuthResponse`). -/
structure AuthResponse where
  user : UserPublic
  token : String
  expires_at : String
  deriving Repr, DecidableEq

/-- Embeds `utils/auth.rs::login_user`: find the active user by username,
verify the password, create a session; both the unknown/inactive-username
case and the wrong-password case return the same error string. -/
def login_user (db : Db) (username password : String)
    (token expires_at created_at : String) (insOk : Bool) :
    Except String AuthResponse × Db :=
  match db.users.find? (fun u => u.username == username && u.is_active) with
  | none => (.error "Invalid username or password", db)
  | some user =>
    if !verify_password password user.password_hash then
      (.error "Invalid username or password", db)
    else
      match create_session db user.id token expires_at created_at insOk with
      | (.error e, db1) => (.error e, db1)
      | (.ok (tok, exp), db1) =>
        (.ok { user := UserPublic.ofUser user, token := tok,
               expires_at := exp }, db1)

/-- Embeds `utils/auth.rs::change_password`: load the user by id (no
active check), verify the old password, store the new hash, then
invalidate every session of that user; `updPwOk` and `invOk` are the
storage oracles for the two `UPDATE` statements, whose errors the code
propagates. -/
def change_password (db : Db) (user_id : Int)
    (old_password new_password : String) (updPwOk invOk : Bool) :
    Except String Unit × Db :=
  match db.users.find? (fun u => u.id == user_id) with
  | none => (.error "User not found", db)
  | some user =>
    if !verify_password old_password user.password_hash then
      (.error "Current password is incorrect", db)
    else if !updPwOk then
      (.error "Failed to update password: storage error", db)
    else
      let db1 := { db with users := db.users.map (fun v =>
          if v.id == user_id then
            { v with password_hash := hash_password new_password } else v) }
      match invalidate_all_user_sessions db1 user_id invOk with
      | (.error e, db2) => (.error e, db2)
      | (.ok _, db2) => (.ok (), db2)

/-- Embeds `commands/auth.rs::validate_token`: run `validate_session` and
collapse its result to a boolean, never an error. -/
def validate_token (db : Db) (now : String) (updOk : Bool) (token : String) :
    Except String Bool × Db :=
  match validate_session db now updOk token with
  | (.ok _, db1) => (.ok true, db1)
  | (.error _, db1) => (.ok false, db1)

/-- Display entry in a day bucket (`models/schedule.rs::ScheduleEntry`). -/
structure ScheduleEntry where
  id : Int
  project_id : Option Int
  project_name : Option String
  operator_id : Option Int
  operator_name : Option String
  load_name : Option String
  start_time : Option String
  end_time : Option String
  planned_hours : Int
  actual_hours : Option Int
  notes : Option String
  status : String
  deriving Repr, DecidableEq

/-- Day bucket (`models/schedule.rs::DaySchedule`). -/
structure DaySchedule where
  date : String
  day_name : String
  entries : List ScheduleEntry
  total_planned_hours : Int
  total_actual_hours : Int
  deriving Repr, DecidableEq

/-- Per-machine week (`models/schedule.rs::MachineWeekSchedule`). -/
structure MachineWeekSchedule where
  machine_id : Int
  machine_name : String
  days : List DaySchedule
  weekly_planned_hours : Int
  weekly_actual_hours : Int
  deriving Repr, DecidableEq

/-- Weekly response (`models/schedule.rs::WeeklyScheduleResponse`). -/
structure WeeklyScheduleResponse where
  week_start : String
  week_end : String
  machines : List MachineWeekSchedule
  deriving Repr, DecidableEq

/-- Embedded message of a `chrono::ParseError` rendered with
`e.to_string()` (both schedule commands map the parse failure this way). -/
def dateParseError : String := "date parse error"

/-- Comparator of `ORDER BY s.start_time ASC` (SQLite sorts `NULL` first
in ascending order). -/
def startTimeLe (a b : Schedule) : Bool :=
  match a.start_time, b.start_time with
  | none, _ => true
  | some _, none => false
  | some x, some y => strLe x y

/-- Comparator of `ORDER BY name ASC` on machines. -/
def machineNameLe (a b : Machine) : Bool := strLe a.name b.name

/-- Row mapper of the per-day query in `get_weekly_schedule`: the two
`LEFT JOIN`s become `Option.bind` lookups. -/
def toScheduleEntry (db : Db) (s : Schedule) : ScheduleEntry :=
  { id := s.id, project_id := s.project_id,
    project_name := s.project_id.bind (fun pid =>
      (db.projects.find? (fun p => p.id == pid)).map Project.name),
    operator_id := s.operator_id,
    operator_name := s.operator_id.bind (fun oid =>
      (db.users.find? (fun u => u.id == oid)).bind User.full_name),
    load_name := s.load_name, start_time := s.start_time,
    end_time := s.end_time, planned_hours := s.planned_hours,
    actual_hours := s.actual_hours, notes := s.notes, status := s.status }

/-- Body of the per-day loop in `get_weekly_schedule`: select this
machine's entries on `start_date + day_offset`, ordered by start time,
and fold their day totals (missing `actual_hours` read as 0, the
`unwrap_or(0.0)`). -/
def build_day (db : Db) (machine_id : Int) (start_date : Int)
    (day_offset : Nat) : DaySchedule :=
  let current_date := start_date + (day_offset : Int)
  let date_str := formatDate current_date
  let entries := (sortBy startTimeLe (db.schedules.filter (fun s =>
      s.machine_id == machine_id && s.date == date_str))).map
      (toScheduleEntry db)
  { date := date_str, day_name := dayName current_date, entries := entries,
    total_planned_hours :=
      (entries.map ScheduleEntry.planned_hours).foldl (· + ·) 0,
    total_actual_hours :=
      (entries.map (fun e => e.actual_hours.getD 0)).foldl (· + ·) 0 }

/-- Body of the per-machine loop in `get_weekly_schedule`: the 7 day
buckets Monday-slot to Sunday-slot, and the weekly totals folded over
them in day-ascending order. -/
def build_machine_week (db : Db) (start_date : Int) (m : Machine) :
    MachineWeekSchedule :=
  let days := (List.range 7).map (build_day db m.id start_date)
  { machine_id := m.id, machine_name := m.name, days := days,
    weekly_planned_hours :=
      (days.map DaySchedule.total_planned_hours).foldl (· + ·) 0,
    weekly_actual_hours :=
      (days.map DaySchedule.total_actual_hours).foldl (· + ·) 0 }

/-- Embeds `commands/schedules.rs::get_weekly_schedule`: validate the
session, require view permission, parse the week start, then build the
per-machine week grid over the machines ordered by name. -/
def get_weekly_schedule (db : Db) (now : String) (updOk : Bool)
    (token week_start : String) : Except String WeeklyScheduleResponse × Db :=
  match validate_session db now updOk token with
  | (.error e, db1) => (.error e, db1)
  | (.ok user, db1) =>
    match require_view_permission user with
    | .error e => (.error e, db1)
    | .ok _ =>
      match parseDate week_start with
      | none => (.error dateParseError, db1)
      | some start_date =>
        (.ok { week_start := week_start,
               week_end := formatDate (start_date + 6),
               machines := (sortBy machineNameLe db1.machines).map
                 (build_machine_week db1 start_date) }, db1)

/-- Next `AUTOINCREMENT` rowid for the `schedules` table. -/
def nextScheduleId (db : Db) : Int :=
  (db.schedules.map Schedule.id).foldl max 0 + 1

/-- The row `copy_week_schedule` inserts for one source entry: same
machine/project/operator/load/planned hours/times/notes, the shifted
date, no `actual_hours` (not in the `INSERT` column list), literal
status `scheduled`, `created_by` re-attributed to the acting user, and
`CURRENT_TIMESTAMP` bookkeeping. -/
def copyRow (db : Db) (user_id : Int) (now : String) (new_date_str : String)
    (schedule : Schedule) : Schedule :=
  { id := nextScheduleId db, machine_id := schedule.machine_id,
    project_id := schedule.project_id, date := new_date_str,
    start_time := schedule.start_time, end_time := schedule.end_time,
    operator_id := schedule.operator_id, load_name := schedule.load_name,
    planned_hours := schedule.planned_hours, actual_hours := none,
    notes := schedule.notes, status := "scheduled",
    created_by := some user_id, created_at := now, updated_at := now }

/-- The `for schedule in source_schedules` loop of `copy_week_schedule`:
re-parse each stored date (`?` aborts the whole command on failure,
keeping whatever was already inserted), insert the shifted copy with the
per-insert storage oracle `insOks` — a failed insert is discarded with
`.ok()` — and increment `copied` unconditionally. -/
def copy_loop (user_id : Int) (now : String) (day_diff : Int)
    (insOks : Nat → Bool) :
    List Schedule → Nat → Int → Db → Except String Int × Db
  | [], _, copied, db => (.ok copied, db)
  | schedule :: rest, k, copied, db =>
    match parseDate schedule.date with
    | none => (.error dateParseError, db)
    | some old_date =>
      let db1 :=
        if insOks k then
          { db with schedules := db.schedules ++
            [copyRow db user_id now (formatDate (old_date + day_diff))
              schedule] }
        else db
      copy_loop user_id now day_diff insOks rest (k + 1) (copied + 1) db1

/-- The source-week row selection of `copy_week_schedule`: the SQL
`date >= ?1 AND date <= ?2` range on `TEXT` dates, a string comparison
which on canonical `YYYY-MM-DD` strings is calendar order over the 7-day
span `[source_start, source_start + 6]`. -/
def sourceWeekRows (db : Db) (source_start : Int) : List Schedule :=
  db.schedules.filter (fun s =>
    strLe (formatDate source_start) s.date &&
    strLe s.date (formatDate (source_start + 6)))

/-- Embeds `commands/schedules.rs::copy_week_schedule`: validate the
session, require edit permission, parse both week starts, select the
source rows of the week span, and copy each row shifted by the exact day
difference. -/
def copy_week_schedule (db : Db) (now : String) (updOk : Bool)
    (insOks : Nat → Bool) (token source_week_start target_week_start : String) :
    Except String Int × Db :=
  match validate_session db now updOk token with
  | (.error e, db1) => (.error e, db1)
  | (.ok user, db1) =>
    match require_edit_permission user with
    | .error e => (.error e, db1)
    | .ok _ =>
      match parseDate source_week_start, parseDate target_week_start with
      | none, _ => (.error dateParseError, db1)
      | some _, none => (.error dateParseError, db1)
      | some source_start, some target_start =>
        copy_loop user.id now (target_start - source_start) insOks
          (sourceWeekRows db1 source_start) 0 0 db1

/-- First-match lookup finds the unique element satisfying the
predicate: embeds a `query_row` hitting a `UNIQUE` column. -/
theorem find?_eq_some_of_unique {α} {p : α → Bool} {l : List α} {a : α}
    (ha : a ∈ l) (hpa : p a = true)
    (huniq : ∀ b ∈ l, p b = true → b = a) :
    l.find? p = some a := by
  induction l with
  | nil => cases ha
  | cons x xs ih =>
    by_cases hx : p x = true
    · have hxa : x = a := huniq x (List.mem_cons_self x xs) hx
      subst hxa
      rw [List.find?_cons_of_pos _ hx]
    · have hxne : x ≠ a := fun h => hx (h ▸ hpa)
      have ha2 : a ∈ xs := by
        rcases List.mem_cons.mp ha with h | h
        · exact absurd h.symm hxne
        · exact h
      rw [List.find?_cons_of_neg _ (by simpa using hx)]
      exact ih ha2 (fun b hb hpb => huniq b (List.mem_cons_of_mem _ hb) hpb)

/-- Unfolding lemma: `validate_session` when no valid row holds the
token. -/
theorem validate_session_none {db : Db} {now tok : String} {updOk : Bool}
    (h : db.sessions.find? (fun s => s.token == tok && s.is_valid) = none) :
    validate_session db now updOk tok =
      (.error "Invalid or expired session", db) := by
  unfold validate_session
  rw [h]

/-- Unfolding lemma: `validate_session` when the found session is past
its expiry. -/
theorem validate_session_expired {db : Db} {now tok : String}
    {updOk : Bool} {s : Session}
    (h : db.sessions.find? (fun t => t.token == tok && t.is_valid) = some s)
    (hexp : strLt s.expires_at now = true) :
    validate_session db now updOk tok =
      (.error "Session expired",
        if updOk then
          { db with sessions := db.sessions.map (fun t =>
              if t.id == s.id then { t with is_valid := false } else t) }
        else db) := by
  unfold validate_session
  rw [h]
  dsimp only
  rw [if_pos hexp]

/-- Unfolding lemma: `validate_session` when the found session is live
and its user resolves. -/
theorem validate_session_ok {db : Db} {now tok : String} {updOk : Bool}
    {s : Session} {u : User}
    (h : db.sessions.find? (fun t => t.token == tok && t.is_valid) = some s)
    (hexp : strLt s.expires_at now = false)
    (hu : db.users.find? (fun v => v.id == s.user_id && v.is_active) =
      some u) :
    validate_session db now updOk tok = (.ok u, db) := by
  unfold validate_session
  rw [h]
  dsimp only
  rw [if_neg (by simp [hexp]), hu]

/-- C5: the authorization check is monotonic in role rank for every user
and any role string: success at `Edit` implies success at `View`, and
failure at `View` implies failure at both `Edit` and `Admin`. -/
theorem claim_C5_check_role_monotonic (user : User) :
    (require_edit_permission user = .ok () →
      require_view_permission user = .ok ()) ∧
    (require_view_permission user ≠ .ok () →
      require_edit_permission user ≠ .ok () ∧ require_admin user ≠ .ok ()) := by
  simp only [require_edit_permission, require_view_permission, require_admin,
    check_role]
  constructor
  · intro h
    by_cases h1 : user.role ∈ ["Admin", "Operator"]
    · have h2 : user.role ∈ ["Admin", "Operator", "Viewer"] := by
        simp only [List.mem_cons, List.not_mem_nil] at h1 ⊢
        tauto
      simp [h2]
    · simp [h1] at h
  · intro h
    have h2 : user.role ∉ ["Admin", "Operator", "Viewer"] := by
      intro hmem
      exact h (by simp [hmem])
    have hA : user.role ≠ "Admin" := fun hh => h2 (by simp [hh])
    have hO : user.role ≠ "Operator" := fun hh => h2 (by simp [hh])
    exact ⟨by simp [hA, hO], by simp [hA]⟩

/-- Operator-role user exercising the monotonicity theorem. -/
def operatorUser : User :=
  { id := 1, username := "op", password_hash := "bcrypt$pw", email := none,
    full_name := none, role := "Operator", is_active := true,
    created_at := "", updated_at := "" }

/-- User carrying a role string outside the enumeration. -/
def ghostUser : User :=
  { id := 2, username := "ghost", password_hash := "bcrypt$pw",
    email := none, full_name := none, role := "Ghost", is_active := true,
    created_at := "", updated_at := "" }

theorem claim_C5_check_role_monotonic_witness :
    require_view_permission operatorUser = .ok () ∧
    (require_edit_permission ghostUser ≠ .ok () ∧
      require_admin ghostUser ≠ .ok ()) :=
  ⟨(claim_C5_check_role_monotonic operatorUser).1 rfl,
    (claim_C5_check_role_monotonic ghostUser).2
      (fun h => Except.noConfusion h)⟩

/-- C7: `login_user` returns the identical `InvalidCredentials` error
string whether no active user carries the username or the password fails
verification, so the two causes are indistinguishable to the caller. -/
theorem claim_C7_login_error_indistinguishable :
    (∀ (db : Db) (username password tok exp cr : String) (insOk : Bool),
      db.users.find? (fun u => u.username == username && u.is_active) = none →
      (login_user db username password tok exp cr insOk).1 =
        .error "Invalid username or password") ∧
    (∀ (db : Db) (username password tok exp cr : String) (insOk : Bool)
      (u : User),
      db.users.find? (fun u => u.username == username && u.is_active) =
        some u →
      verify_password password u.password_hash = false →
      (login_user db username password tok exp cr insOk).1 =
        .error "Invalid username or password") := by
  constructor
  · intro db username password tok exp cr insOk hfind
    unfold login_user
    rw [hfind]
  · intro db username password tok exp cr insOk u hfind hverify
    unfold login_user
    rw [hfind]
    simp [hverify]

/-- Single active user whose password is `pw` under the idealised
hash. -/
def aliceUser : User :=
  { id := 1, username := "alice", password_hash := "bcrypt$pw",
    email := none, full_name := none, role := "Admin", is_active := true,
    created_at := "", updated_at := "" }

/-- Database holding only `aliceUser`. -/
def oneUserDb : Db :=
  { users := [aliceUser], sessions := [], schedules := [], machines := [],
    projects := [] }

theorem claim_C7_login_error_indistinguishable_witness :
    (login_user oneUserDb "nobody" "pw" "t" "e" "c" true).1 =
      .error "Invalid username or password" ∧
    (login_user oneUserDb "alice" "wrong" "t" "e" "c" true).1 =
      .error "Invalid username or password" :=
  ⟨claim_C7_login_error_indistinguishable.1 oneUserDb "nobody" "pw"
      "t" "e" "c" true rfl,
    claim_C7_login_error_indistinguishable.2 oneUserDb "alice" "wrong"
      "t" "e" "c" true aliceUser rfl rfl⟩

/-- C9: the public `validate_token` command never returns an error: it
collapses every `validate_session` outcome to `Ok true` on success and
`Ok false` on any failure, making the failure causes indistinguishable. -/
theorem claim_C9_validate_token_never_errors (db : Db) (now : String)
    (updOk : Bool) (tok : String) :
    (∃ b, (validate_token db now updOk tok).1 = .ok b) ∧
    (∀ e, (validate_token db now updOk tok).1 ≠ .error e) ∧
    ((validate_token db now updOk tok).1 = .ok true ↔
      ∃ u, (validate_session db now updOk tok).1 = .ok u) ∧
    ((validate_token db now updOk tok).1 = .ok false ↔
      ∃ e, (validate_session db now updOk tok).1 = .error e) := by
  unfold validate_token
  rcases hv : validate_session db now updOk tok with ⟨r, db1⟩
  cases r with
  | ok u => simp
  | error e => simp

/-- C1: a stored session past its expiry that is still marked valid:
the first `validate_session` call returns `Session expired` whether or
not the invalidation `UPDATE` succeeds, the (successful) invalidation
write leaves every row holding that token invalid, and every subsequent
call with that token returns `Invalid or expired session` without
changing the store again. -/
theorem claim_C1_expired_session_lifecycle (db : Db) (now : String)
    (s : Session) (tok : String)
    (hmem : s ∈ db.sessions) (htok : s.token = tok)
    (hvalid : s.is_valid = true) (hexp : strLt s.expires_at now = true)
    (huniq : ∀ t ∈ db.sessions, t.token = tok → t = s) :
    (∀ updOk, (validate_session db now updOk tok).1 =
      .error "Session expired") ∧
    (∀ t ∈ (validate_session db now true tok).2.sessions,
      t.token = tok → t.is_valid = false) ∧
    (∀ now2 updOk2,
      (validate_session (validate_session db now true tok).2 now2 updOk2
        tok).1 = .error "Invalid or expired session" ∧
      (validate_session (validate_session db now true tok).2 now2 updOk2
        tok).2 = (validate_session db now true tok).2) := by
  have hfind : db.sessions.find? (fun t => t.token == tok && t.is_valid) =
      some s := by
    apply find?_eq_some_of_unique hmem
    · simp [htok, hvalid]
    · intro b hb hpb
      simp only [Bool.and_eq_true, beq_iff_eq] at hpb
      exact huniq b hb hpb.1
  have hmap : (validate_session db now true tok).2 =
      { db with sessions := db.sessions.map (fun t =>
          if t.id == s.id then { t with is_valid := false } else t) } := by
    rw [validate_session_expired hfind hexp]
    rfl
  refine ⟨fun updOk => by rw [validate_session_expired hfind hexp], ?_, ?_⟩
  · intro t ht httok
    rw [hmap] at ht
    simp only [List.mem_map] at ht
    obtain ⟨t0, ht0, rfl⟩ := ht
    by_cases hid : (t0.id == s.id) = true
    · rw [if_pos hid]
    · rw [if_neg hid] at httok ⊢
      have ht0s := huniq t0 ht0 httok
      subst ht0s
      simp at hid
  · intro now2 updOk2
    have hfind2 : (validate_session db now true tok).2.sessions.find?
        (fun t => t.token == tok && t.is_valid) = none := by
      rw [List.find?_eq_none]
      intro x hx
      rw [hmap] at hx
      simp only [List.mem_map] at hx
      obtain ⟨t0, ht0, rfl⟩ := hx
      by_cases hid : (t0.id == s.id) = true
      · rw [if_pos hid]
        simp
      · rw [if_neg hid]
        simp only [Bool.and_eq_true, beq_iff_eq, not_and]
        intro httok
        have ht0s := huniq t0 ht0 httok
        subst ht0s
        simp at hid
    constructor
    · rw [validate_session_none hfind2]
    · rw [validate_session_none hfind2]

/-- Still-valid session whose expiry has passed. -/
def expiredSession : Session :=
  { id := 1, user_id := 1, token := "tok",
    created_at := "2024-01-01 00:00:00",
    expires_at := "2024-01-02 00:00:00", is_valid := true }

/-- Database holding only `expiredSession`. -/
def expiredSessionDb : Db :=
  { users := [], sessions := [expiredSession], schedules := [],
    machines := [], projects := [] }

theorem claim_C1_expired_session_lifecycle_witness :
    (validate_session expiredSessionDb "2024-01-03 00:00:00" false
      "tok").1 = .error "Session expired" ∧
    (∀ t ∈ (validate_session expiredSessionDb "2024-01-03 00:00:00" true
        "tok").2.sessions, t.token = "tok" → t.is_valid = false) ∧
    (validate_session
      (validate_session expiredSessionDb "2024-01-03 00:00:00" true
        "tok").2 "2024-01-04 00:00:00" true "tok").1 =
      .error "Invalid or expired session" := by
  have h := claim_C1_expired_session_lifecycle expiredSessionDb
    "2024-01-03 00:00:00" expiredSession "tok"
    (by decide) (by decide) (by decide) (by decide) (by decide)
  exact ⟨h.1 false, h.2.1, (h.2.2 "2024-01-04 00:00:00" true).1⟩

/-- The idealised bcrypt tagging is injective. -/
theorem hash_password_inj {a b : String}
    (h : hash_password a = hash_password b) : a = b := by
  unfold hash_password at h
  have hdata : ("bcrypt$" ++ a).data = ("bcrypt$" ++ b).data := by rw [h]
  rw [String.data_append, String.data_append] at hdata
  have hab := List.append_cancel_left hdata
  cases a
  cases b
  exact congrArg String.mk hab

/-- A password verifies against its own idealised hash. -/
theorem verify_hash_self (p : String) :
    verify_password p (hash_password p) = true := by
  simp [verify_password, hash_password]

/-- Distinct passwords fail verification against each other's hash. -/
theorem verify_hash_ne {p q : String} (h : p ≠ q) :
    verify_password p (hash_password q) = false := by
  simp only [verify_password, hash_password, beq_eq_false_iff_ne, ne_eq]
  intro hc
  exact h (hash_password_inj hc).symm

/-- Unfolding lemma: `login_user` when the active user is found and the
password verifies (successful `INSERT`). -/
theorem login_user_ok {db : Db} {u : User}
    {username password tok exp cr : String}
    (hfind : db.users.find? (fun v => v.username == username && v.is_active)
      = some u)
    (hver : verify_password password u.password_hash = true) :
    login_user db username password tok exp cr true =
      (.ok { user := UserPublic.ofUser u, token := tok, expires_at := exp },
        { db with sessions := db.sessions ++
          [{ id := nextSessionId db, user_id := u.id, token := tok,
             created_at := cr, expires_at := exp, is_valid := true }] }) := by
  unfold login_user
  rw [hfind]
  dsimp only
  rw [hver]
  simp [create_session]

/-- Unfolding lemma: `login_user` when the active user is found but the
password fails verification. -/
theorem login_user_badpw {db : Db} {u : User}
    {username password tok exp cr : String} {insOk : Bool}
    (hfind : db.users.find? (fun v => v.username == username && v.is_active)
      = some u)
    (hver : verify_password password u.password_hash = false) :
    login_user db username password tok exp cr insOk =
      (.error "Invalid username or password", db) := by
  unfold login_user
  rw [hfind]
  dsimp only
  rw [hver]
  simp

/-- Unfolding lemma: successful `change_password` (user found by id, old
password verifies, both `UPDATE` statements succeed): the new hash is
stored and every session of the user is invalidated. -/
theorem change_password_ok {db : Db} {u : User} {oldPw newPw : String}
    (hfind : db.users.find? (fun v => v.id == u.id) = some u)
    (hver : verify_password oldPw u.password_hash = true) :
    change_password db u.id oldPw newPw true true =
      (.ok (), { db with
        users := db.users.map (fun v =>
          if v.id == u.id then
            { v with password_hash := hash_password newPw } else v),
        sessions := db.sessions.map (fun t =>
          if t.user_id == u.id then { t with is_valid := false } else t) })
      := by
  unfold change_password
  rw [hfind]
  dsimp only
  rw [hver]
  simp [invalidate_all_user_sessions]

/-- C6: after a successful `change_password`, login with the new
password succeeds, login with the old (distinct) password fails with the
`InvalidCredentials` error, and every session issued to the user before
the change fails `validate_session` with `InvalidSession`. -/
theorem claim_C6_change_password_roundtrip (db : Db) (u : User)
    (oldPw newPw : String)
    (hmem : u ∈ db.users)
    (huniq_id : ∀ v ∈ db.users, v.id = u.id → v = u)
    (huniq_name : ∀ v ∈ db.users, v.username = u.username → v = u)
    (hhash : u.password_hash = hash_password oldPw)
    (hactive : u.is_active = true)
    (hne : oldPw ≠ newPw) :
    (change_password db u.id oldPw newPw true true).1 = .ok () ∧
    (∀ tok exp cr, ∃ r,
      (login_user (change_password db u.id oldPw newPw true true).2
        u.username newPw tok exp cr true).1 = .ok r) ∧
    (∀ tok exp cr insOk,
      (login_user (change_password db u.id oldPw newPw true true).2
        u.username oldPw tok exp cr insOk).1 =
        .error "Invalid username or password") ∧
    (∀ s0 ∈ db.sessions, s0.user_id = u.id →
      (∀ t ∈ db.sessions, t.token = s0.token → t = s0) →
      ∀ now2 updOk2,
        (validate_session (change_password db u.id oldPw newPw true true).2
          now2 updOk2 s0.token).1 = .error "Invalid or expired session") := by
  have hfind : db.users.find? (fun v => v.id == u.id) = some u := by
    apply find?_eq_some_of_unique hmem
    · simp
    · intro b hb hpb
      simp only [beq_iff_eq] at hpb
      exact huniq_id b hb hpb
  have hver : verify_password oldPw u.password_hash = true := by
    rw [hhash]
    exact verify_hash_self oldPw
  have hcp := @change_password_ok db u oldPw newPw hfind hver
  have hdb2 : (change_password db u.id oldPw newPw true true).2 =
      { db with
        users := db.users.map (fun v =>
          if v.id == u.id then
            { v with password_hash := hash_password newPw } else v),
        sessions := db.sessions.map (fun t =>
          if t.user_id == u.id then { t with is_valid := false } else t) }
      := by rw [hcp]
  have hfu : (fun v => if v.id == u.id then
      { v with password_hash := hash_password newPw } else v) u =
      { u with password_hash := hash_password newPw } := by simp
  have hfindname :
      (change_password db u.id oldPw newPw true true).2.users.find?
        (fun v => v.username == u.username && v.is_active) =
        some { u with password_hash := hash_password newPw } := by
    rw [hdb2]
    apply find?_eq_some_of_unique
    · exact hfu ▸ List.mem_map_of_mem _ hmem
    · simp [hactive]
    · intro b hb hpb
      simp only [List.mem_map] at hb
      obtain ⟨v, hv, rfl⟩ := hb
      have hvuser : v.username = u.username := by
        by_cases hid : (v.id == u.id) = true
        · rw [if_pos hid] at hpb
          simpa using (Bool.and_eq_true _ _ |>.mp hpb).1
        · rw [if_neg hid] at hpb
          simpa using (Bool.and_eq_true _ _ |>.mp hpb).1
      have hvu := huniq_name v hv hvuser
      subst hvu
      exact hfu
  refine ⟨by rw [hcp], ?_, ?_, ?_⟩
  · intro tok exp cr
    have hl := @login_user_ok _ _ u.username newPw tok exp cr hfindname
      (by exact verify_hash_self newPw)
    simp only [hl]
    exact ⟨_, rfl⟩
  · intro tok exp cr insOk
    rw [login_user_badpw hfindname (by exact verify_hash_ne hne)]
  · intro s0 hs0 huid htokuniq now2 updOk2
    have hfind2 : (change_password db u.id oldPw newPw true
        true).2.sessions.find? (fun t => t.token == s0.token && t.is_valid)
        = none := by
      rw [hdb2]
      rw [List.find?_eq_none]
      intro x hx
      simp only [List.mem_map] at hx
      obtain ⟨t0, ht0, rfl⟩ := hx
      by_cases hid : (t0.user_id == u.id) = true
      · rw [if_pos hid]
        simp
      · rw [if_neg hid]
        simp only [Bool.and_eq_true, beq_iff_eq, not_and]
        intro httok
        have ht0s := htokuniq t0 ht0 httok
        subst ht0s
        rw [huid] at hid
        simp at hid
    rw [validate_session_none hfind2]

/-- User `bob` whose current password is `pw` under the idealised hash. -/
def bobUser : User :=
  { id := 7, username := "bob", password_hash := "bcrypt$pw",
    email := none, full_name := none, role := "Operator",
    is_active := true, created_at := "", updated_at := "" }

/-- A live session of `bobUser` issued before the password change. -/
def bobSession : Session :=
  { id := 3, user_id := 7, token := "bob-tk",
    created_at := "2024-01-01 00:00:00",
    expires_at := "9999-12-31 23:59:59", is_valid := true }

/-- Database holding `bobUser` and his pre-change session. -/
def bobDb : Db :=
  { users := [bobUser], sessions := [bobSession], schedules := [],
    machines := [], projects := [] }

theorem claim_C6_change_password_roundtrip_witness :
    (change_password bobDb 7 "pw" "pw2" true true).1 = .ok () ∧
    (∃ r, (login_user (change_password bobDb 7 "pw" "pw2" true true).2
      "bob" "pw2" "t" "e" "c" true).1 = .ok r) ∧
    (login_user (change_password bobDb 7 "pw" "pw2" true true).2
      "bob" "pw" "t" "e" "c" true).1 =
      .error "Invalid username or password" ∧
    (validate_session (change_password bobDb 7 "pw" "pw2" true true).2
      "2024-06-01 00:00:00" true "bob-tk").1 =
      .error "Invalid or expired session" := by
  have h := claim_C6_change_password_roundtrip bobDb bobUser "pw" "pw2"
    (by decide) (by decide) (by decide) (by decide) (by decide)
    (by decide)
  exact ⟨h.1, h.2.1 "t" "e" "c", h.2.2.1 "t" "e" "c" true,
    h.2.2.2 bobSession (by decide) (by decide) (by decide)
      "2024-06-01 00:00:00" true⟩

/-- Left fold of integer addition computes the list sum. -/
theorem foldl_add_eq_sum (l : List Int) : l.foldl (· + ·) 0 = l.sum :=
  (@List.sum_eq_foldl Int _ l).symm

/-- The day totals of a built day bucket are the sums of its entries'
hours (missing actual hours read as 0). -/
theorem build_day_totals (db : Db) (mid start : Int) (off : Nat) :
    (build_day db mid start off).total_planned_hours =
      ((build_day db mid start off).entries.map
        ScheduleEntry.planned_hours).sum ∧
    (build_day db mid start off).total_actual_hours =
      ((build_day db mid start off).entries.map
        (fun e => e.actual_hours.getD 0)).sum :=
  ⟨foldl_add_eq_sum _, foldl_add_eq_sum _⟩

/-- Shape of one machine's built week: identity fields, exactly 7 day
buckets whose dates are `start + 0 .. start + 6` in order, day totals
summing the entries, and weekly totals summing the 7 day totals. -/
theorem build_machine_week_spec (db : Db) (start : Int) (m : Machine) :
    (build_machine_week db start m).machine_id = m.id ∧
    (build_machine_week db start m).machine_name = m.name ∧
    (build_machine_week db start m).days.length = 7 ∧
    (∀ i (hi : i < (build_machine_week db start m).days.length),
      ((build_machine_week db start m).days.get ⟨i, hi⟩).date =
        formatDate (start + (i : Int))) ∧
    (∀ d ∈ (build_machine_week db start m).days,
      d.total_planned_hours =
        (d.entries.map ScheduleEntry.planned_hours).sum ∧
      d.total_actual_hours =
        (d.entries.map (fun e => e.actual_hours.getD 0)).sum) ∧
    (build_machine_week db start m).weekly_planned_hours =
      ((build_machine_week db start m).days.map
        DaySchedule.total_planned_hours).sum ∧
    (build_machine_week db start m).weekly_actual_hours =
      ((build_machine_week db start m).days.map
        DaySchedule.total_actual_hours).sum := by
  have hdays : (build_machine_week db start m).days =
      (List.range 7).map (build_day db m.id start) := rfl
  refine ⟨rfl, rfl, by rw [hdays]; simp, ?_, ?_,
    foldl_add_eq_sum _, foldl_add_eq_sum _⟩
  · intro i hi
    have hi2 : i < ((List.range 7).map (build_day db m.id start)).length := by
      rw [← hdays]
      exact hi
    rw [List.get_of_eq hdays ⟨i, hi⟩]
    simp [build_day]
  · intro d hd
    rw [hdays] at hd
    obtain ⟨off, hoff, rfl⟩ := List.mem_map.mp hd
    exact build_day_totals db m.id start off

/-- Unfolding lemma: a `.1 = .ok` result of `validate_session` pins the
whole result pair (the success path never changes the store). -/
theorem validate_session_fst_ok_snd {db : Db} {now tok : String}
    {updOk : Bool} {u : User}
    (h : (validate_session db now updOk tok).1 = .ok u) :
    validate_session db now updOk tok = (.ok u, db) := by
  unfold validate_session at h ⊢
  cases hfind : db.sessions.find? (fun s => s.token == tok && s.is_valid) with
  | none =>
    rw [hfind] at h
    simp at h
  | some s =>
    rw [hfind] at h
    dsimp only at h ⊢
    by_cases hexp : strLt s.expires_at now = true
    · rw [if_pos hexp] at h
      simp at h
    · rw [if_neg hexp] at h ⊢
      cases hu : db.users.find? (fun v => v.id == s.user_id && v.is_active) with
      | none =>
        rw [hu] at h
        simp at h
      | some u2 =>
        rw [hu] at h
        dsimp only at h ⊢
        simp at h
        rw [h]

/-- Unfolding lemma: `get_weekly_schedule` on a validated view-capable
session and a parseable week start. -/
theorem get_weekly_schedule_ok {db : Db} {now tok ws : String}
    {updOk : Bool} {user : User} {start : Int}
    (hval : (validate_session db now updOk tok).1 = .ok user)
    (hperm : require_view_permission user = .ok ())
    (hws : parseDate ws = some start) :
    get_weekly_schedule db now updOk tok ws =
      (.ok { week_start := ws, week_end := formatDate (start + 6),
             machines := (sortBy machineNameLe db.machines).map
               (build_machine_week db start) }, db) := by
  unfold get_weekly_schedule
  rw [validate_session_fst_ok_snd hval]
  dsimp only
  rw [hperm]
  dsimp only
  rw [hws]

/-- C2: on any validated request, the weekly view has one row per
machine; each row has exactly 7 day buckets in day-ascending order (days
with no entries present with empty entry lists and zero totals), each
day total is the sum of its entries' planned/actual hours with missing
actual hours read as 0, and the weekly totals are the day-ascending sums
of the 7 day totals. -/
theorem claim_C2_build_week_week_grid (db : Db) (now tok ws : String)
    (updOk : Bool) (user : User) (start : Int)
    (hval : (validate_session db now updOk tok).1 = .ok user)
    (hperm : require_view_permission user = .ok ())
    (hws : parseDate ws = some start) :
    ∃ resp, (get_weekly_schedule db now updOk tok ws).1 = .ok resp ∧
      resp.machines.length = db.machines.length ∧
      (∀ m ∈ db.machines, ∃ mw ∈ resp.machines,
        mw.machine_id = m.id ∧ mw.machine_name = m.name) ∧
      (∀ mw ∈ resp.machines,
        mw.days.length = 7 ∧
        (∀ i (hi : i < mw.days.length),
          (mw.days.get ⟨i, hi⟩).date = formatDate (start + (i : Int))) ∧
        (∀ d ∈ mw.days,
          d.total_planned_hours =
            (d.entries.map ScheduleEntry.planned_hours).sum ∧
          d.total_actual_hours =
            (d.entries.map (fun e => e.actual_hours.getD 0)).sum ∧
          (d.entries = [] →
            d.total_planned_hours = 0 ∧ d.total_actual_hours = 0)) ∧
        mw.weekly_planned_hours =
          (mw.days.map DaySchedule.total_planned_hours).sum ∧
        mw.weekly_actual_hours =
          (mw.days.map DaySchedule.total_actual_hours).sum) := by
  refine ⟨{ week_start := ws, week_end := formatDate (start + 6),
            machines := (sortBy machineNameLe db.machines).map
              (build_machine_week db start) }, ?_, ?_, ?_, ?_⟩
  · rw [get_weekly_schedule_ok hval hperm hws]
  · simp [length_sortBy]
  · intro m hm
    exact ⟨build_machine_week db start m,
      List.mem_map_of_mem _ ((mem_sortBy _ _ _).mpr hm), rfl, rfl⟩
  · intro mw hmw
    obtain ⟨m0, hm0, rfl⟩ := List.mem_map.mp hmw
    obtain ⟨-, -, hlen, hdate, htot, hwp, hwa⟩ :=
      build_machine_week_spec db start m0
    refine ⟨hlen, hdate, ?_, hwp, hwa⟩
    intro d hd
    obtain ⟨h1, h2⟩ := htot d hd
    refine ⟨h1, h2, ?_⟩
    intro hde
    rw [h1, h2, hde]
    simp


/-- Unfolding lemma: `copy_week_schedule` on a validated edit-capable
session and two parseable week starts runs the copy loop over the
source-week rows with the exact day difference. -/
theorem copy_week_schedule_ok {db : Db} {now tok src tgt : String}
    {updOk : Bool} {user : User} {S T : Int} (insOks : Nat → Bool)
    (hval : (validate_session db now updOk tok).1 = .ok user)
    (hperm : require_edit_permission user = .ok ())
    (hs : parseDate src = some S) (ht : parseDate tgt = some T) :
    copy_week_schedule db now updOk insOks tok src tgt =
      copy_loop user.id now (T - S) insOks (sourceWeekRows db S) 0 0 db := by
  unfold copy_week_schedule
  rw [validate_session_fst_ok_snd hval]
  dsimp only
  rw [hperm]
  dsimp only
  rw [hs, ht]

/-- The copy loop returns `Ok (copied + n)` over `n` parseable-dated
rows for every per-insert storage oracle: the count never consults the
insert result. -/
theorem copy_loop_count (user_id : Int) (now : String) (day_diff : Int)
    (insOks : Nat → Bool) (l : List Schedule) :
    ∀ (k : Nat) (copied : Int) (db : Db),
      (∀ r ∈ l, (parseDate r.date).isSome) →
      (copy_loop user_id now day_diff insOks l k copied db).1 =
        .ok (copied + l.length) := by
  induction l with
  | nil =>
    intro k copied db hp
    simp [copy_loop]
  | cons r rest ih =>
    intro k copied db hp
    obtain ⟨d, hd⟩ := Option.isSome_iff_exists.mp
      (hp r (List.mem_cons_self r rest))
    unfold copy_loop
    rw [hd]
    dsimp only
    rw [ih (k + 1) (copied + 1) _
      (fun t ht => hp t (List.mem_cons_of_mem _ ht))]
    congr 1
    simp only [List.length_cons]
    push_cast
    ring

/-- The copy loop with every insert failing leaves the store
untouched (while still counting, see `copy_loop_count`). -/
theorem copy_loop_all_fail (user_id : Int) (now : String) (day_diff : Int)
    (l : List Schedule) :
    ∀ (k : Nat) (copied : Int) (db : Db),
      (∀ r ∈ l, (parseDate r.date).isSome) →
      (copy_loop user_id now day_diff (fun _ => false) l k copied db).2 =
        db := by
  induction l with
  | nil =>
    intro k copied db hp
    rfl
  | cons r rest ih =>
    intro k copied db hp
    obtain ⟨d, hd⟩ := Option.isSome_iff_exists.mp
      (hp r (List.mem_cons_self r rest))
    unfold copy_loop
    rw [hd]
    dsimp only
    exact ih (k + 1) (copied + 1) db
      (fun t ht => hp t (List.mem_cons_of_mem _ ht))

/-- What the spec says one copied row keeps from its source row: all
descriptive fields, the date shifted by the day difference, no actual
hours, status reset, and `created_by` re-attributed. -/
def copied_from (user_id day_diff : Int) (src c : Schedule) : Prop :=
  c.machine_id = src.machine_id ∧ c.project_id = src.project_id ∧
  (∀ d, parseDate src.date = some d → c.date = formatDate (d + day_diff)) ∧
  c.start_time = src.start_time ∧ c.end_time = src.end_time ∧
  c.operator_id = src.operator_id ∧ c.load_name = src.load_name ∧
  c.planned_hours = src.planned_hours ∧ c.actual_hours = none ∧
  c.notes = src.notes ∧ c.status = "scheduled" ∧ c.created_by = some user_id

/-- The row built by `copyRow` satisfies `copied_from`. -/
theorem copied_from_copyRow (db : Db) (user_id : Int) (now : String)
    (day_diff : Int) {src : Schedule} {d : Int}
    (hd : parseDate src.date = some d) :
    copied_from user_id day_diff src
      (copyRow db user_id now (formatDate (d + day_diff)) src) := by
  refine ⟨rfl, rfl, ?_, rfl, rfl, rfl, rfl, rfl, rfl, rfl, rfl, rfl⟩
  intro d2 hd2
  rw [hd] at hd2
  obtain rfl := Option.some.inj hd2
  rfl

/-- With every insert succeeding, the copy loop appends exactly one
`copied_from` row per source row, in order. -/
theorem copy_loop_inserts (user_id : Int) (now : String) (day_diff : Int)
    (l : List Schedule) :
    ∀ (k : Nat) (copied : Int) (db : Db),
      (∀ r ∈ l, (parseDate r.date).isSome) →
      ∃ news,
        (copy_loop user_id now day_diff (fun _ => true) l k copied
          db).2.schedules = db.schedules ++ news ∧
        news.length = l.length ∧
        ∀ i (hi : i < l.length) (hi2 : i < news.length),
          copied_from user_id day_diff (l.get ⟨i, hi⟩)
            (news.get ⟨i, hi2⟩) := by
  induction l with
  | nil =>
    intro k copied db hp
    refine ⟨[], by simp [copy_loop], rfl, ?_⟩
    intro i hi hi2
    exact absurd hi (by simp)
  | cons r rest ih =>
    intro k copied db hp
    obtain ⟨d, hd⟩ := Option.isSome_iff_exists.mp
      (hp r (List.mem_cons_self r rest))
    obtain ⟨news, hnews, hlen, hcf⟩ := ih (k + 1) (copied + 1)
      { db with schedules := db.schedules ++
        [copyRow db user_id now (formatDate (d + day_diff)) r] }
      (fun t ht => hp t (List.mem_cons_of_mem _ ht))
    refine ⟨copyRow db user_id now (formatDate (d + day_diff)) r :: news,
      ?_, by simp [hlen], ?_⟩
    · unfold copy_loop
      rw [hd]
      dsimp only
      rw [if_pos rfl, hnews]
      simp
    · intro i hi hi2
      cases i with
      | zero => exact copied_from_copyRow db user_id now day_diff hd
      | succ j =>
        exact hcf j (by simpa using hi) (by simpa using hi2)

/-- C3: a validated `copy_week_schedule` with parseable week starts and
all inserts succeeding reads exactly the source-week rows, appends one
copy per row — same machine/project/operator/load/planned hours/times/
notes, date shifted by the exact day difference, absent actual hours,
status `scheduled`, `created_by` re-attributed to the acting user — and
returns the number of rows copied. -/
theorem claim_C3_copy_week_shifted_copies (db : Db)
    (now tok src tgt : String) (updOk : Bool) (user : User) (S T : Int)
    (hval : (validate_session db now updOk tok).1 = .ok user)
    (hperm : require_edit_permission user = .ok ())
    (hs : parseDate src = some S) (ht : parseDate tgt = some T)
    (hp : ∀ r ∈ sourceWeekRows db S, (parseDate r.date).isSome) :
    (copy_week_schedule db now updOk (fun _ => true) tok src tgt).1 =
      .ok ((sourceWeekRows db S).length) ∧
    ∃ news,
      (copy_week_schedule db now updOk (fun _ => true) tok src
        tgt).2.schedules = db.schedules ++ news ∧
      news.length = (sourceWeekRows db S).length ∧
      ∀ i (hi : i < (sourceWeekRows db S).length) (hi2 : i < news.length),
        copied_from user.id (T - S) ((sourceWeekRows db S).get ⟨i, hi⟩)
          (news.get ⟨i, hi2⟩) := by
  have hcw := copy_week_schedule_ok (fun _ => true) hval hperm hs ht
  constructor
  · rw [hcw, copy_loop_count user.id now (T - S) (fun _ => true)
      (sourceWeekRows db S) 0 0 db hp]
    simp
  · rw [hcw]
    exact copy_loop_inserts user.id now (T - S) (sourceWeekRows db S)
      0 0 db hp

/-- C4: the per-entry insert failures of `copy_week_schedule` are
swallowed: for every per-insert storage oracle the command still
returns `Ok n` for the `n` source rows, and when every insert fails the
store is left entirely unchanged while the count is still `n`. -/
theorem claim_C4_copy_week_count_ignores_insert_failures (db : Db)
    (now tok src tgt : String) (updOk : Bool) (insOks : Nat → Bool)
    (user : User) (S T : Int)
    (hval : (validate_session db now updOk tok).1 = .ok user)
    (hperm : require_edit_permission user = .ok ())
    (hs : parseDate src = some S) (ht : parseDate tgt = some T)
    (hp : ∀ r ∈ sourceWeekRows db S, (parseDate r.date).isSome) :
    (copy_week_schedule db now updOk insOks tok src tgt).1 =
      .ok ((sourceWeekRows db S).length) ∧
    (copy_week_schedule db now updOk (fun _ => false) tok src tgt).2 =
      db := by
  constructor
  · rw [copy_week_schedule_ok insOks hval hperm hs ht,
      copy_loop_count user.id now (T - S) insOks (sourceWeekRows db S)
        0 0 db hp]
    simp
  · rw [copy_week_schedule_ok (fun _ => false) hval hperm hs ht]
    exact copy_loop_all_fail user.id now (T - S) (sourceWeekRows db S)
      0 0 db hp

/-- C8: with a validated, sufficiently privileged session, a malformed
week start makes both schedule commands fail with the parse error and
leave the store unchanged, before any schedule read or write. -/
theorem claim_C8_malformed_date_fails_fast :
    (∀ (db : Db) (now tok ws : String) (updOk : Bool) (user : User),
      (validate_session db now updOk tok).1 = .ok user →
      require_view_permission user = .ok () →
      parseDate ws = none →
      get_weekly_schedule db now updOk tok ws =
        (.error dateParseError, db)) ∧
    (∀ (db : Db) (now tok src tgt : String) (updOk : Bool)
      (insOks : Nat → Bool) (user : User),
      (validate_session db now updOk tok).1 = .ok user →
      require_edit_permission user = .ok () →
      parseDate src = none →
      copy_week_schedule db now updOk insOks tok src tgt =
        (.error dateParseError, db)) ∧
    (∀ (db : Db) (now tok src tgt : String) (updOk : Bool)
      (insOks : Nat → Bool) (user : User) (S : Int),
      (validate_session db now updOk tok).1 = .ok user →
      require_edit_permission user = .ok () →
      parseDate src = some S → parseDate tgt = none →
      copy_week_schedule db now updOk insOks tok src tgt =
        (.error dateParseError, db)) := by
  refine ⟨?_, ?_, ?_⟩
  · intro db now tok ws updOk user hval hperm hws
    unfold get_weekly_schedule
    rw [validate_session_fst_ok_snd hval]
    dsimp only
    rw [hperm]
    dsimp only
    rw [hws]
  · intro db now tok src tgt updOk insOks user hval hperm hs
    unfold copy_week_schedule
    rw [validate_session_fst_ok_snd hval]
    dsimp only
    rw [hperm]
    dsimp only
    rw [hs]
  · intro db now tok src tgt updOk insOks user S hval hperm hs ht
    unfold copy_week_schedule
    rw [validate_session_fst_ok_snd hval]
    dsimp only
    rw [hperm]
    dsimp only
    rw [hs, ht]

/-- C10: neither schedule command checks that its date arguments are
Mondays: any parseable date works, the weekly grid simply covers
`d .. d + 6`, and the copy shifts rows by the exact day difference of
the two given dates. -/
theorem claim_C10_no_monday_precondition :
    (∀ (db : Db) (now tok ws : String) (updOk : Bool) (user : User)
      (d : Int),
      (validate_session db now updOk tok).1 = .ok user →
      require_view_permission user = .ok () →
      parseDate ws = some d →
      ∃ resp, (get_weekly_schedule db now updOk tok ws).1 = .ok resp ∧
        ∀ mw ∈ resp.machines, mw.days.length = 7 ∧
          ∀ i (hi : i < mw.days.length),
            (mw.days.get ⟨i, hi⟩).date = formatDate (d + (i : Int))) ∧
    (∀ (db : Db) (now tok src tgt : String) (updOk : Bool) (user : User)
      (S T : Int),
      (validate_session db now updOk tok).1 = .ok user →
      require_edit_permission user = .ok () →
      parseDate src = some S → parseDate tgt = some T →
      (∀ r ∈ sourceWeekRows db S, (parseDate r.date).isSome) →
      (copy_week_schedule db now updOk (fun _ => true) tok src tgt).1 =
        .ok ((sourceWeekRows db S).length) ∧
      ∃ news,
        (copy_week_schedule db now updOk (fun _ => true) tok src
          tgt).2.schedules = db.schedules ++ news ∧
        news.length = (sourceWeekRows db S).length ∧
        ∀ i (hi : i < (sourceWeekRows db S).length)
          (hi2 : i < news.length) (dOld : Int),
          parseDate ((sourceWeekRows db S).get ⟨i, hi⟩).date = some dOld →
          (news.get ⟨i, hi2⟩).date = formatDate (dOld + (T - S))) := by
  constructor
  · intro db now tok ws updOk user d hval hperm hws
    refine ⟨_, by rw [get_weekly_schedule_ok hval hperm hws], ?_⟩
    intro mw hmw
    obtain ⟨m0, hm0, rfl⟩ := List.mem_map.mp hmw
    obtain ⟨-, -, hlen, hdate, -⟩ := build_machine_week_spec db d m0
    exact ⟨hlen, hdate⟩
  · intro db now tok src tgt updOk user S T hval hperm hs ht hp
    have hcw := copy_week_schedule_ok (fun _ => true) hval hperm hs ht
    constructor
    · rw [hcw, copy_loop_count user.id now (T - S) (fun _ => true)
        (sourceWeekRows db S) 0 0 db hp]
      simp
    · rw [hcw]
      obtain ⟨news, h1, h2, h3⟩ := copy_loop_inserts user.id now (T - S)
        (sourceWeekRows db S) 0 0 db hp
      refine ⟨news, h1, h2, ?_⟩
      intro i hi hi2 dOld hdOld
      exact (h3 i hi hi2).2.2.1 dOld hdOld

/-- Admin user behind the schedule-command fixtures. -/
def schedUser : User :=
  { id := 1, username := "planner", password_hash := "bcrypt$pw",
    email := none, full_name := none, role := "Admin", is_active := true,
    created_at := "", updated_at := "" }

/-- Live session of `schedUser`. -/
def schedSession : Session :=
  { id := 1, user_id := 1, token := "stok",
    created_at := "2024-01-01 00:00:00",
    expires_at := "9999-01-01 00:00:00", is_valid := true }

/-- Schedule row on Monday 2024-01-01 with logged actual hours
(fixed-point tenths: 12.0 planned, 11.5 actual). -/
def rowA : Schedule :=
  { id := 1, machine_id := 1, project_id := none, date := "2024-01-01",
    start_time := some "08:00", end_time := some "12:00",
    operator_id := none, load_name := some "L1", planned_hours := 120,
    actual_hours := some 115, notes := none, status := "completed",
    created_by := some 1, created_at := "", updated_at := "" }

/-- Schedule row on Tuesday 2024-01-02 with no actual hours. -/
def rowB : Schedule :=
  { id := 2, machine_id := 1, project_id := none, date := "2024-01-02",
    start_time := none, end_time := none, operator_id := none,
    load_name := none, planned_hours := 120, actual_hours := none,
    notes := none, status := "scheduled", created_by := some 1,
    created_at := "", updated_at := "" }

/-- The one machine of the fixtures. -/
def machine1 : Machine := { id := 1, name := "M1" }

/-- Fixture database for the schedule-command witnesses. -/
def schedDb : Db :=
  { users := [schedUser], sessions := [schedSession],
    schedules := [rowA, rowB], machines := [machine1], projects := [] }

theorem claim_C2_build_week_week_grid_witness :
    ∃ resp, (get_weekly_schedule schedDb "2024-06-01 00:00:00" true "stok"
      "2024-01-01").1 = .ok resp ∧
      resp.machines.length = schedDb.machines.length := by
  obtain ⟨resp, h1, h2, -⟩ := claim_C2_build_week_week_grid schedDb
    "2024-06-01 00:00:00" "stok" "2024-01-01" true schedUser 19723
    rfl rfl (by decide)
  exact ⟨resp, h1, h2⟩

theorem claim_C3_copy_week_shifted_copies_witness :
    (copy_week_schedule schedDb "2024-06-01 00:00:00" true (fun _ => true)
      "stok" "2024-01-01" "2024-01-08").1 =
      .ok ((sourceWeekRows schedDb 19723).length) ∧
    (sourceWeekRows schedDb 19723).length = 2 :=
  ⟨(claim_C3_copy_week_shifted_copies schedDb "2024-06-01 00:00:00"
      "stok" "2024-01-01" "2024-01-08" true schedUser 19723 19730
      rfl rfl (by decide) (by decide) (by decide)).1,
    by decide⟩

theorem claim_C4_copy_week_count_ignores_insert_failures_witness :
    (copy_week_schedule schedDb "2024-06-01 00:00:00" true (fun _ => false)
      "stok" "2024-01-01" "2024-01-08").1 =
      .ok ((sourceWeekRows schedDb 19723).length) ∧
    (copy_week_schedule schedDb "2024-06-01 00:00:00" true (fun _ => false)
      "stok" "2024-01-01" "2024-01-08").2 = schedDb ∧
    (sourceWeekRows schedDb 19723).length = 2 := by
  have h := claim_C4_copy_week_count_ignores_insert_failures schedDb
    "2024-06-01 00:00:00" "stok" "2024-01-01" "2024-01-08" true
    (fun _ => false) schedUser 19723 19730 rfl rfl (by decide) (by decide)
    (by decide)
  exact ⟨h.1, h.2, by decide⟩

theorem claim_C8_malformed_date_fails_fast_witness :
    get_weekly_schedule schedDb "2024-06-01 00:00:00" true "stok"
      "2024-13-01" = (.error dateParseError, schedDb) ∧
    copy_week_schedule schedDb "2024-06-01 00:00:00" true (fun _ => true)
      "stok" "not-a-date" "2024-01-08" = (.error dateParseError, schedDb) ∧
    copy_week_schedule schedDb "2024-06-01 00:00:00" true (fun _ => true)
      "stok" "2024-01-01" "2024-02-30" = (.error dateParseError, schedDb) :=
  ⟨claim_C8_malformed_date_fails_fast.1 schedDb "2024-06-01 00:00:00"
      "stok" "2024-13-01" true schedUser rfl rfl (by decide),
    claim_C8_malformed_date_fails_fast.2.1 schedDb "2024-06-01 00:00:00"
      "stok" "not-a-date" "2024-01-08" true (fun _ => true) schedUser
      rfl rfl (by decide),
    claim_C8_malformed_date_fails_fast.2.2 schedDb "2024-06-01 00:00:00"
      "stok" "2024-01-01" "2024-02-30" true (fun _ => true) schedUser 19723
      rfl rfl (by decide) (by decide)⟩

theorem claim_C10_no_monday_precondition_witness :
    (∃ resp, (get_weekly_schedule schedDb "2024-06-01 00:00:00" true "stok"
      "2024-01-02").1 = .ok resp) ∧
    (copy_week_schedule schedDb "2024-06-01 00:00:00" true (fun _ => true)
      "stok" "2024-01-02" "2024-01-05").1 =
      .ok ((sourceWeekRows schedDb 19724).length) ∧
    (sourceWeekRows schedDb 19724).length = 1 := by
  obtain ⟨resp, h1, -⟩ := claim_C10_no_monday_precondition.1 schedDb
    "2024-06-01 00:00:00" "stok" "2024-01-02" true schedUser 19724
    rfl rfl (by decide)
  have h2 := (claim_C10_no_monday_precondition.2 schedDb
    "2024-06-01 00:00:00" "stok" "2024-01-02" "2024-01-05" true schedUser
    19724 19727 rfl rfl (by decide) (by decide) (by decide)).1
  exact ⟨⟨resp, h1⟩, h2, by decide⟩

end VMC
